import Mathlib

/-!
Verification of the search-and-ranking core of labonneboite against its
natural-language specification.

The development shallowly embeds the relevant parts of
`labonneboite/common/search.py` and `labonneboite/web/pagination.py`:
Python integers become `ℤ`/`ℕ`, Python 2 integer division (`/`, floor
division) becomes Lean `Int` division (Euclidean division, which agrees
with floor division for the positive divisors used here), float
arithmetic on scores/seeds is modelled exactly over `ℚ`, and code that
raises exceptions returns `Except`.
-/

/-- Modelled from the spec: `settings.PAGINATION_COMPANIES_PER_PAGE` lives in
the configuration module, which is not part of the reviewed sources. The spec
fixes the page size to 10 (page-1 window `from=1, to=10`, scenarios with
`pageSize=10`), matching the literal `10`s hard-coded next to each use of the
constant in the source. -/
def PAGINATION_COMPANIES_PER_PAGE : ℕ := 10

namespace Pagination

/-- Embeds `Pagination.pages` (`web/pagination.py`):
`int(ceil(self.total_count / float(self.per_page)))`, with the float
division modelled exactly over `ℚ`. -/
def pages (total_count per_page : ℕ) : ℤ :=
  ⌈(total_count : ℚ) / (per_page : ℚ)⌉

end Pagination

namespace PaginationManager

/-- Embeds `PaginationManager.get_current_page` (`web/pagination.py`):
`1 + int(self.current_from_number / 10)` under Python 2 floor division
(the memoisation in `self._current_page` is dropped; the computation is
pure). -/
def get_current_page (current_from_number : ℤ) : ℤ :=
  1 + current_from_number / 10

/-- Embeds `PaginationManager.get_page_count` (`web/pagination.py`):
`1 + (self.company_count - 1) / settings.PAGINATION_COMPANIES_PER_PAGE`
under Python 2 floor division. -/
def get_page_count (company_count : ℕ) : ℤ :=
  1 + ((company_count : ℤ) - 1) / (PAGINATION_COMPANIES_PER_PAGE : ℤ)

end PaginationManager

namespace Fetcher

/-- Step 1 of the window clamp in `Fetcher.get_companies`
(`common/search.py` line 128): `if self.from_number < 1: from, to = 1, 10`. -/
def clamp_step_low (w : ℤ × ℤ) : ℤ × ℤ :=
  if w.1 < 1 then (1, 10) else w

/-- Step 2 (line 131): `if (self.from_number - 1) % 10: from, to = 1, 10`
(Python truthiness: reset when the remainder is nonzero; Python `%` with a
positive modulus agrees with `Int.emod`). -/
def clamp_step_align (w : ℤ × ℤ) : ℤ × ℤ :=
  if (w.1 - 1) % 10 ≠ 0 then (1, 10) else w

/-- Step 3 (line 134): `if self.to_number > self.company_count + 1:
to = company_count + 1`. -/
def clamp_step_high (company_count : ℕ) (w : ℤ × ℤ) : ℤ × ℤ :=
  if w.2 > (company_count : ℤ) + 1 then (w.1, (company_count : ℤ) + 1) else w

/-- Step 4 (line 136): `if self.to_number < self.from_number: from, to = 1, 10`. -/
def clamp_step_inverted (w : ℤ × ℤ) : ℤ × ℤ :=
  if w.2 < w.1 then (1, 10) else w

/-- Step 5 (line 140): `if self.to_number - self.from_number >
settings.PAGINATION_COMPANIES_PER_PAGE: from, to = 1, 10`. -/
def clamp_step_span (w : ℤ × ℤ) : ℤ × ℤ :=
  if w.2 - w.1 > (PAGINATION_COMPANIES_PER_PAGE : ℤ) then (1, 10) else w

/-- The window-clamping block of `Fetcher.get_companies`
(`common/search.py` lines 128-142), as the composition of its five
sequential rewrites of `(from_number, to_number)`. -/
def get_companies_window_clamp (from_number to_number : ℤ) (company_count : ℕ) : ℤ × ℤ :=
  clamp_step_span (clamp_step_inverted (clamp_step_high company_count
    (clamp_step_align (clamp_step_low (from_number, to_number)))))

end Fetcher

/-- C1 (counterexample): requesting the window `from=21, to=25` with a total
count of 5 first clamps `to` down to `count + 1 = 6`, which makes the window
inverted, so the code resets it to the page-1 window `(1, 10)` — whose upper
bound 10 exceeds `count + 1 = 6`. Hence the clamped window does not always
satisfy `to <= count + 1`. -/
theorem C1_clamp_counterexample :
    Fetcher.get_companies_window_clamp 21 25 5 = (1, 10) ∧
      ¬ ((Fetcher.get_companies_window_clamp 21 25 5).2 ≤ (5 : ℤ) + 1) := by
  constructor
  · decide
  · decide

/-- C1 (amended): after the five clamping rules run, the window satisfies
`1 ≤ from ≤ to` and `to - from ≤ maxPageSpan`, and either `to ≤ count + 1`
or the window was reset to the page-1 window `(1, 10)` (the latter can leave
`to = 10 > count + 1` when the count is below 9). -/
theorem C1_clamped_window_bounds (from_number to_number : ℤ) (company_count : ℕ) :
    1 ≤ (Fetcher.get_companies_window_clamp from_number to_number company_count).1 ∧
    (Fetcher.get_companies_window_clamp from_number to_number company_count).1 ≤
      (Fetcher.get_companies_window_clamp from_number to_number company_count).2 ∧
    (Fetcher.get_companies_window_clamp from_number to_number company_count).2 -
      (Fetcher.get_companies_window_clamp from_number to_number company_count).1 ≤
      (PAGINATION_COMPANIES_PER_PAGE : ℤ) ∧
    ((Fetcher.get_companies_window_clamp from_number to_number company_count).2 ≤
        (company_count : ℤ) + 1 ∨
      Fetcher.get_companies_window_clamp from_number to_number company_count = (1, 10)) := by
  unfold Fetcher.get_companies_window_clamp Fetcher.clamp_step_span
    Fetcher.clamp_step_inverted Fetcher.clamp_step_high Fetcher.clamp_step_align
    Fetcher.clamp_step_low PAGINATION_COMPANIES_PER_PAGE
  split_ifs <;> simp_all

/-- C9 (counterexample): at window position `from = 10`, the code computes
`1 + floor(10 / 10) = 2`, while the claimed formula `1 + floor((from - 1)/10)`
gives `1 + floor(9/10) = 1`. -/
theorem C9_current_page_counterexample :
    PaginationManager.get_current_page 10 ≠ 1 + ⌊((10 : ℚ) - 1) / 10⌋ := by
  have h : ⌊((10 : ℚ) - 1) / 10⌋ = 0 := by
    rw [show ((10 : ℚ) - 1) = ((9 : ℤ) : ℚ) by norm_num,
      show (10 : ℚ) = ((10 : ℕ) : ℚ) by norm_num,
      Rat.floor_intCast_div_natCast]
    decide
  rw [h]
  decide

/-- C9 (amended): `get_page_count` returns `1 + floor((count - 1)/pageSize)`
for every total count, and `get_current_page` returns `1 + floor(from/10)` —
which coincides with the claimed `1 + floor((from - 1)/10)` exactly when
`from` is not a multiple of 10 (in particular on every aligned window start
`from = 10*k + 1`). -/
theorem C9_page_computations (company_count : ℕ) (current_from_number : ℤ) :
    PaginationManager.get_page_count company_count =
      1 + ⌊((company_count : ℚ) - 1) / (PAGINATION_COMPANIES_PER_PAGE : ℚ)⌋ ∧
    PaginationManager.get_current_page current_from_number =
      1 + ⌊(current_from_number : ℚ) / 10⌋ ∧
    (current_from_number % 10 ≠ 0 →
      PaginationManager.get_current_page current_from_number =
        1 + ⌊((current_from_number : ℚ) - 1) / 10⌋) := by
  have hf : ∀ a : ℤ, ⌊(a : ℚ) / ((10 : ℕ) : ℚ)⌋ = a / 10 := by
    intro a
    rw [Rat.floor_intCast_div_natCast]
    norm_num
  refine ⟨?_, ?_, ?_⟩
  · unfold PaginationManager.get_page_count PAGINATION_COMPANIES_PER_PAGE
    rw [show ((company_count : ℚ) - 1) = (((company_count : ℤ) - 1 : ℤ) : ℚ) by push_cast; ring,
      hf]
    norm_num
  · unfold PaginationManager.get_current_page
    rw [show (10 : ℚ) = ((10 : ℕ) : ℚ) by norm_num, hf]
  · intro hmod
    unfold PaginationManager.get_current_page
    rw [show ((current_from_number : ℚ) - 1) = (((current_from_number - 1 : ℤ)) : ℚ) by
          push_cast; ring,
      show (10 : ℚ) = ((10 : ℕ) : ℚ) by norm_num, hf]
    omega

/-- C9 (witness): concrete evaluation at `count = 7`, `from = 11`:
`get_page_count 7 = 1 + floor(6/10) = 1` and, since 11 is not a multiple of
10, `get_current_page 11 = 1 + floor(10/10) = 2` matches the claimed
formula. -/
theorem C9_page_computations_witness :
    PaginationManager.get_page_count 7 =
      1 + ⌊((7 : ℚ) - 1) / (PAGINATION_COMPANIES_PER_PAGE : ℚ)⌋ ∧
    PaginationManager.get_current_page 11 = 1 + ⌊((11 : ℚ) - 1) / 10⌋ := by
  refine ⟨?_, ?_⟩
  · have h := (C9_page_computations 7 11).1
    simpa using h
  · have h := (C9_page_computations 7 11).2.2 (by decide)
    simpa using h

/-- C10: the two page-count computations in `web/pagination.py` agree: for
every total count, `Pagination.pages` (ceiling division) equals
`PaginationManager.get_page_count` (`1 + floor((count - 1)/pageSize)`) when
`per_page` is the configured companies-per-page constant. In particular both
give 0 pages for an empty result set. -/
theorem C10_page_count_agreement (total_count : ℕ) :
    Pagination.pages total_count PAGINATION_COMPANIES_PER_PAGE =
      PaginationManager.get_page_count total_count := by
  unfold Pagination.pages PaginationManager.get_page_count PAGINATION_COMPANIES_PER_PAGE
  have hceil : ⌈(total_count : ℚ) / ((10 : ℕ) : ℚ)⌉ = -((-(total_count : ℤ)) / 10) := by
    rw [show ((total_count : ℚ) / ((10 : ℕ) : ℚ)) = -(((-(total_count : ℤ) : ℤ) : ℚ) / ((10 : ℕ) : ℚ)) by
          push_cast; ring,
      Int.ceil_neg, Rat.floor_intCast_div_natCast]
    norm_num
  rw [hceil]
  omega

/-- The fixed radius tiers explored by the fallback block of
`Fetcher.get_companies` (`common/search.py` line 155):
`[(30, '30 km'), (50, '50 km'), (3000, u'France entière')]`. -/
def radius_tiers : List (ℕ × String) :=
  [(30, "30 km"), (50, "50 km"), (3000, "France entière")]

/-- The alternative-radius loop of `Fetcher.get_companies`
(`common/search.py` lines 155-160). `company_count_at` abstracts the external
Elasticsearch count `self.get_company_count([self.rome], [self.naf], distance)`
as a function of the radius; `last_count` is the running best count. A tier is
appended to `self.alternative_distances` only when its count strictly exceeds
`last_count`, which is then updated. -/
def alternative_distances_loop (company_count_at : ℕ → ℕ) :
    List (ℕ × String) → ℕ → List (ℕ × String × ℕ)
  | [], _ => []
  | (distance, distance_label) :: rest, last_count =>
    let company_count := company_count_at distance
    if company_count > last_count then
      (distance, distance_label, company_count) ::
        alternative_distances_loop company_count_at rest company_count
    else
      alternative_distances_loop company_count_at rest last_count

/-- The `alternative_distances` accumulated by the fallback block, starting
from `last_count = 0` (`common/search.py` line 154). -/
def alternative_distances (company_count_at : ℕ → ℕ) : List (ℕ × String × ℕ) :=
  alternative_distances_loop company_count_at radius_tiers 0

/-- The fallback guard of `Fetcher.get_companies` (`common/search.py`
line 147): the alternative-radius exploration runs only when
`self.company_count < 10`. -/
def fallback_alternative_distances (company_count : ℕ) (company_count_at : ℕ → ℕ) :
    List (ℕ × String × ℕ) :=
  if company_count < 10 then alternative_distances company_count_at else []

theorem alternative_distances_loop_counts (company_count_at : ℕ → ℕ) :
    ∀ (tiers : List (ℕ × String)) (last_count : ℕ),
      (∀ e ∈ alternative_distances_loop company_count_at tiers last_count,
          last_count < e.2.2 ∧ e.2.2 = company_count_at e.1 ∧ (e.1, e.2.1) ∈ tiers) ∧
      List.Chain' (· < ·)
        ((alternative_distances_loop company_count_at tiers last_count).map fun e => e.2.2) := by
  intro tiers
  induction tiers with
  | nil => intro last_count; simp [alternative_distances_loop]
  | cons td rest ih =>
    intro last_count
    obtain ⟨d, lbl⟩ := td
    by_cases h : company_count_at d > last_count
    · have hloop : alternative_distances_loop company_count_at ((d, lbl) :: rest) last_count =
          (d, lbl, company_count_at d) ::
            alternative_distances_loop company_count_at rest (company_count_at d) := by
        simp [alternative_distances_loop, h]
      have ihd := ih (company_count_at d)
      constructor
      · intro e he
        rw [hloop] at he
        rcases List.mem_cons.mp he with rfl | he
        · exact ⟨h, rfl, List.mem_cons_self _ _⟩
        · obtain ⟨h1, h2, h3⟩ := ihd.1 e he
          exact ⟨lt_trans h h1, h2, List.mem_cons_of_mem _ h3⟩
      · rw [hloop, List.map_cons]
        refine List.chain'_cons'.mpr ⟨?_, ihd.2⟩
        intro y hy
        have hym : y ∈ (alternative_distances_loop company_count_at rest
            (company_count_at d)).map fun e => e.2.2 := List.mem_of_mem_head? hy
        obtain ⟨e, he, rfl⟩ := List.mem_map.mp hym
        exact (ihd.1 e he).1
    · have hloop : alternative_distances_loop company_count_at ((d, lbl) :: rest) last_count =
          alternative_distances_loop company_count_at rest last_count := by
        simp [alternative_distances_loop, h]
      have ihd := ih last_count
      rw [hloop]
      exact ⟨fun e he => ⟨(ihd.1 e he).1, (ihd.1 e he).2.1,
        List.mem_cons_of_mem _ (ihd.1 e he).2.2⟩, ihd.2⟩

/-- C6: whenever the fallback planner runs, the radius tiers are evaluated in
the fixed increasing order 30 km, 50 km, nationwide, and a tier is recorded
in `alternative_distances` only when its count strictly exceeds the best
count so far — hence the recorded counts are strictly increasing in tier
order, each recorded count is the tier's own count, and each recorded tier is
one of the configured tiers. -/
theorem C6_fallback_counts_strictly_increasing (company_count : ℕ)
    (company_count_at : ℕ → ℕ) :
    List.Chain' (· < ·)
      ((fallback_alternative_distances company_count company_count_at).map fun e => e.2.2) ∧
    (∀ e ∈ fallback_alternative_distances company_count company_count_at,
        e.2.2 = company_count_at e.1 ∧ (e.1, e.2.1) ∈ radius_tiers) := by
  unfold fallback_alternative_distances
  split_ifs
  · exact ⟨(alternative_distances_loop_counts company_count_at radius_tiers 0).2,
      fun e he => ⟨((alternative_distances_loop_counts company_count_at radius_tiers 0).1 e he).2.1,
        ((alternative_distances_loop_counts company_count_at radius_tiers 0).1 e he).2.2⟩⟩
  · simp

/-- C4 (counterexample): a query at radius 30 km with a primary count of 3
(so the fallback runs) records the 30 km tier itself, with the primary count,
because the loop's initial best count is 0, not the primary count. -/
theorem C4_radius30_recorded_counterexample :
    fallback_alternative_distances 3 (fun _ => 3) = [(30, "30 km", 3)] ∧ (3 : ℕ) < 10 := by
  exact ⟨rfl, by decide⟩

/-- C4 (amended): in the fallback radius exploration the 30 km tier is
compared against an initial best count of 0, not against the primary count:
it is recorded (with its own count) exactly when its count is strictly
positive — so for a query whose own radius is 30 km the 30 km tier reappears
whenever the primary count is between 1 and 9. -/
theorem C4_radius30_recorded_iff (company_count : ℕ) (company_count_at : ℕ → ℕ)
    (hlow : company_count < 10) :
    ((30, "30 km", company_count_at 30) ∈
        fallback_alternative_distances company_count company_count_at) ↔
      0 < company_count_at 30 := by
  unfold fallback_alternative_distances
  rw [if_pos hlow]
  unfold alternative_distances radius_tiers
  by_cases h : company_count_at 30 > 0
  · have hloop : alternative_distances_loop company_count_at
        [(30, "30 km"), (50, "50 km"), (3000, "France entière")] 0 =
        (30, "30 km", company_count_at 30) ::
          alternative_distances_loop company_count_at
            [(50, "50 km"), (3000, "France entière")] (company_count_at 30) := by
      simp [alternative_distances_loop, h]
    rw [hloop]
    simp [h]
  · have hloop : alternative_distances_loop company_count_at
        [(30, "30 km"), (50, "50 km"), (3000, "France entière")] 0 =
        alternative_distances_loop company_count_at
          [(50, "50 km"), (3000, "France entière")] 0 := by
      simp [alternative_distances_loop, h]
    rw [hloop]
    constructor
    · intro hmem
      have hmem2 := (alternative_distances_loop_counts company_count_at
        [(50, "50 km"), (3000, "France entière")] 0).1 _ hmem
      have h3 := hmem2.2.2
      simp at h3
    · intro hpos
      exact absurd hpos h

/-- C4 (amendment witness): with a primary count of 3 at radius 30 km, the
30 km tier is indeed recorded since its count 3 is strictly positive. -/
theorem C4_radius30_recorded_iff_witness :
    ((30, "30 km", 3) ∈ fallback_alternative_distances 3 (fun _ => 3)) ↔ (0 : ℕ) < 3 :=
  C4_radius30_recorded_iff 3 (fun _ => 3) (by decide)

/-- A match candidate as consumed by `shuffle_companies`: the hydrated
`Office` row fields the function consults. `distance` is the integer-rounded
distance attached in `retrieve_companies_from_elastic_search`; `score` is the
base relevance score; `rome_scores` is the office's occupation-specific
relevance score table (the `score_for_rome_*` fields), an association list
from occupation code to score. -/
structure Company where
  siret : ℕ
  distance : ℤ
  score : ℕ
  rome_scores : List (ℕ × ℕ)
deriving DecidableEq

/-- Modelled from the spec: `Office.get_stars_for_rome_code` is defined in
the employer model module, which is not among the reviewed sources. Per the
spec, scores (base and occupation-specific) lie in 0-100 and stars are the
score scaled to a 0-5 range (e.g. 2.3 or 4.9, at most 5.0, "only score 99
and not 100"), adjusted to the contextual occupation code; an absent
occupation-specific score falls back to the base score. -/
def Company.get_stars_for_rome_code (c : Company) (rome_code : Option ℕ) : ℚ :=
  match rome_code with
  | none => (c.score : ℚ) / 20
  | some r =>
    match c.rome_scores.find? (fun p => p.1 == r) with
    | some p => (p.2 : ℚ) / 20
    | none => (c.score : ℚ) / 20

/-- The wall-clock timestamp consulted by `shuffle_companies` through
`datetime.now().timetuple().tm_yday` (`common/search.py` line 294): only the
day-of-year field is ever read; the time-of-day fields are carried to state
that they do not influence the result. -/
structure Datetime where
  tm_yday : ℕ
  hour : ℕ
  minute : ℕ
  second : ℕ
deriving DecidableEq

/-- The bucketing key of `shuffle_companies` (`common/search.py` lines
276-286): the distance under sort-by-distance; otherwise the special value
100 for manually boosted offices (base score exactly 100), and the
occupation-adjusted star rating for everyone else. -/
def bucket_key (distance_sort : Bool) (rome_code : Option ℕ) (c : Company) : ℚ :=
  if distance_sort then (c.distance : ℚ)
  else if c.score = 100 then 100
  else c.get_stars_for_rome_code rome_code

/-- One insertion into the `collections.OrderedDict` of buckets
(`common/search.py` lines 287-289): a company with a known key is appended to
that key's bucket (which keeps its position), a new key opens a fresh bucket
at the end. -/
def add_to_buckets (buckets : List (ℚ × List Company)) (key : ℚ) (c : Company) :
    List (ℚ × List Company) :=
  match buckets with
  | [] => [(key, [c])]
  | (k, cs) :: rest =>
    if key = k then (k, cs ++ [c]) :: rest else (k, cs) :: add_to_buckets rest key c

/-- The bucket-building loop of `shuffle_companies` (`common/search.py`
lines 274-289), producing the ordered dictionary as a list of
(key, bucket) pairs in first-seen key order. -/
def make_buckets (distance_sort : Bool) (rome_code : Option ℕ)
    (companies : List Company) : List (ℚ × List Company) :=
  companies.foldl
    (fun buckets c => add_to_buckets buckets (bucket_key distance_sort rome_code c) c) []

/-- Python list element swap `x[i], x[j] = x[j], x[i]`. An out-of-range index
raises IndexError in Python; that case — reachable in `random.shuffle` only
on day 366, when the seed is exactly 1.0 — leaves the list unchanged here. -/
def swap_entries (x : List α) (i j : ℕ) : List α :=
  match x[i]?, x[j]? with
  | some xi, some xj => (x.set i xj).set j xi
  | _, _ => x

/-- The loop of Python 2 `random.shuffle(x, random)` with the constant
`random() = day_of_year / 366.0` (`common/search.py` lines 294-298): for `i`
from `len(x) - 1` down to 1, `j = int(random() * (i + 1))` and entries `i`
and `j` are swapped. The float product is modelled exactly over rationals:
`int((day_of_year / 366.0) * (i + 1))` is `day_of_year * (i + 1) / 366` by
natural floor division. The last argument is the current loop index `i`. -/
def shuffle_steps (day_of_year : ℕ) (x : List α) : ℕ → List α
  | 0 => x
  | n + 1 =>
    shuffle_steps day_of_year (swap_entries x (n + 1) (day_of_year * (n + 2) / 366)) n

/-- One call `random.shuffle(bucket, lambda: shuffle_seed)`
(`common/search.py` line 298). -/
def bucket_shuffle (day_of_year : ℕ) (x : List α) : List α :=
  shuffle_steps day_of_year x (x.length - 1)

/-- Embeds `shuffle_companies` (`common/search.py` lines 264-301): group the
page into buckets by `bucket_key`, shuffle each bucket with the day-derived
constant seed, and concatenate the buckets in their first-seen order. -/
def shuffle_companies (companies : List Company) (distance_sort : Bool)
    (rome_code : Option ℕ) (now : Datetime) : List Company :=
  let buckets := make_buckets distance_sort rome_code companies
  let day_of_year := now.tm_yday
  ((buckets.map fun b => bucket_shuffle day_of_year b.2).flatten)

/-- C3: the reordering performed by `shuffle_companies` is a deterministic
function of the candidate list, the sort mode, the occupation code and the
calendar day: the only temporal input is `tm_yday`, so two runs whose
timestamps share the same day-of-year produce identical output, whatever
their time of day — there is no other randomness source. -/
theorem C3_shuffle_deterministic_per_day (companies : List Company)
    (distance_sort : Bool) (rome_code : Option ℕ) (now1 now2 : Datetime)
    (hday : now1.tm_yday = now2.tm_yday) :
    shuffle_companies companies distance_sort rome_code now1 =
      shuffle_companies companies distance_sort rome_code now2 := by
  unfold shuffle_companies
  rw [hday]

/-- C3 (witness): a morning run and a night run on day 37 of the year
reorder the same two-element page identically. -/
theorem C3_shuffle_deterministic_per_day_witness :
    shuffle_companies [⟨1, 3, 80, []⟩, ⟨2, 3, 70, []⟩] true none ⟨37, 9, 15, 0⟩ =
      shuffle_companies [⟨1, 3, 80, []⟩, ⟨2, 3, 70, []⟩] true none ⟨37, 23, 59, 59⟩ :=
  C3_shuffle_deterministic_per_day [⟨1, 3, 80, []⟩, ⟨2, 3, 70, []⟩] true none
    ⟨37, 9, 15, 0⟩ ⟨37, 23, 59, 59⟩ rfl

theorem perm_cons_set {α : Type} : ∀ (x : List α) (k : ℕ) (a b : α), x[k]? = some b →
    List.Perm (b :: x.set k a) (a :: x) := by
  intro x
  induction x with
  | nil => intro k a b h; simp at h
  | cons c t ih =>
    intro k a b h
    cases k with
    | zero =>
      simp at h
      subst h
      simpa [List.set] using List.Perm.swap a c t
    | succ k =>
      simp at h
      have step1 : List.Perm (b :: c :: t.set k a) (c :: b :: t.set k a) :=
        List.Perm.swap c b (t.set k a)
      have step2 : List.Perm (c :: b :: t.set k a) (c :: a :: t) :=
        List.Perm.cons c (ih k a b h)
      have step3 : List.Perm (c :: a :: t) (a :: c :: t) := List.Perm.swap a c t
      simpa [List.set] using (step1.trans step2).trans step3

theorem set_set_perm_of_getElem {α : Type} (x : List α) (i j : ℕ) (xi xj : α)
    (hi : x[i]? = some xi) (hj : x[j]? = some xj) :
    List.Perm ((x.set i xj).set j xi) x := by
  have hyj : (x.set i xj)[j]? = some xj := by
    by_cases hij : i = j
    · subst hij
      rw [List.getElem?_set_self (List.getElem?_eq_some.mp hi).1]
    · rw [List.getElem?_set_ne hij, hj]
  have h1 := perm_cons_set (x.set i xj) j xi xj hyj
  have h2 := perm_cons_set x i xj xi hi
  exact (h1.trans h2).cons_inv

theorem swap_entries_perm {α : Type} (x : List α) (i j : ℕ) :
    List.Perm (swap_entries x i j) x := by
  unfold swap_entries
  rcases hi : x[i]? with _ | xi
  · simp [hi]
  · rcases hj : x[j]? with _ | xj
    · simp [hi, hj]
    · simpa [hi, hj] using set_set_perm_of_getElem x i j xi xj hi hj

theorem shuffle_steps_perm {α : Type} (day_of_year : ℕ) :
    ∀ (n : ℕ) (x : List α), List.Perm (shuffle_steps day_of_year x n) x := by
  intro n
  induction n with
  | zero => intro x; exact List.Perm.refl x
  | succ n ih =>
    intro x
    exact (ih _).trans (swap_entries_perm x (n + 1) (day_of_year * (n + 2) / 366))

theorem bucket_shuffle_perm {α : Type} (day_of_year : ℕ) (x : List α) :
    List.Perm (bucket_shuffle day_of_year x) x :=
  shuffle_steps_perm day_of_year _ x

/-- Every bucket built by `make_buckets` is nonempty and key-homogeneous. -/
def BucketsKeyed (K : Company → ℚ) (buckets : List (ℚ × List Company)) : Prop :=
  ∀ p ∈ buckets, p.2 ≠ [] ∧ ∀ x ∈ p.2, K x = p.1

theorem bucketsKeyed_add (K : Company → ℚ) (c : Company) :
    ∀ buckets, BucketsKeyed K buckets → BucketsKeyed K (add_to_buckets buckets (K c) c) := by
  intro buckets
  induction buckets with
  | nil =>
    intro _ p hp
    simp [add_to_buckets] at hp
    subst hp
    constructor <;> simp
  | cons q rest ih =>
    intro hbs
    obtain ⟨k, cs⟩ := q
    have hq := hbs (k, cs) (List.mem_cons_self _ _)
    have hrest : BucketsKeyed K rest := fun p hp => hbs p (List.mem_cons_of_mem _ hp)
    simp only [add_to_buckets]
    split_ifs with hk
    · intro p hp
      rcases List.mem_cons.mp hp with rfl | hp
      · refine ⟨by simp, ?_⟩
        intro x hx
        rcases List.mem_append.mp hx with hx | hx
        · exact hq.2 x hx
        · simp at hx
          subst hx
          exact hk
      · exact hrest p hp
    · intro p hp
      rcases List.mem_cons.mp hp with rfl | hp
      · exact hq
      · exact ih hrest p hp

theorem foldl_buckets_keyed (K : Company → ℚ) :
    ∀ (l : List Company) (buckets : List (ℚ × List Company)), BucketsKeyed K buckets →
      BucketsKeyed K (l.foldl (fun acc c => add_to_buckets acc (K c) c) buckets) := by
  intro l
  induction l with
  | nil => intro bs h; exact h
  | cons c t ih => intro bs h; exact ih _ (bucketsKeyed_add K c bs h)

theorem make_buckets_keyed (distance_sort : Bool) (rome_code : Option ℕ)
    (companies : List Company) :
    BucketsKeyed (bucket_key distance_sort rome_code)
      (make_buckets distance_sort rome_code companies) := by
  unfold make_buckets
  exact foldl_buckets_keyed _ companies [] (by intro p hp; simp at hp)

theorem add_to_buckets_keys (key : ℚ) (c : Company) :
    ∀ buckets : List (ℚ × List Company),
      (add_to_buckets buckets key c).map Prod.fst =
        if key ∈ buckets.map Prod.fst then buckets.map Prod.fst
        else buckets.map Prod.fst ++ [key] := by
  intro buckets
  induction buckets with
  | nil => simp [add_to_buckets]
  | cons q rest ih =>
    obtain ⟨k, cs⟩ := q
    by_cases hk : key = k
    · subst hk
      simp [add_to_buckets]
    · rw [show add_to_buckets ((k, cs) :: rest) key c = (k, cs) :: add_to_buckets rest key c from by
        simp [add_to_buckets, hk]]
      by_cases hmem : key ∈ rest.map Prod.fst
      · have h1 : key ∈ ((k, cs) :: rest).map Prod.fst := by simp [hmem]
        rw [if_pos h1, List.map_cons, ih, if_pos hmem, List.map_cons]
      · have h1 : key ∉ ((k, cs) :: rest).map Prod.fst := by simp [hk, hmem]
        rw [if_neg h1, List.map_cons, ih, if_neg hmem, List.map_cons, List.cons_append]

/-- Priority preorder on bucket keys: under sort-by-distance smaller keys
(closer) come first, under sort-by-score larger keys (higher-starred) come
first. -/
def key_le (distance_sort : Bool) (a b : ℚ) : Prop :=
  if distance_sort then a ≤ b else b ≤ a

/-- Strict version of `key_le`: the first key has strictly higher priority. -/
def key_lt (distance_sort : Bool) (a b : ℚ) : Prop :=
  if distance_sort then a < b else b < a

theorem key_le_trans (distance_sort : Bool) {a b c : ℚ}
    (h1 : key_le distance_sort a b) (h2 : key_le distance_sort b c) :
    key_le distance_sort a c := by
  cases distance_sort <;>
    simp only [key_le, Bool.false_eq_true, if_true, if_false] at h1 h2 ⊢
  · exact le_trans h2 h1
  · exact le_trans h1 h2

theorem key_lt_of_le_ne (distance_sort : Bool) {a b : ℚ}
    (h : key_le distance_sort a b) (hne : a ≠ b) : key_lt distance_sort a b := by
  cases distance_sort <;>
    simp only [key_le, key_lt, Bool.false_eq_true, if_true, if_false] at h ⊢
  · exact lt_of_le_of_ne h (fun e => hne e.symm)
  · exact lt_of_le_of_ne h hne

theorem foldl_buckets_sorted (K : Company → ℚ) (distance_sort : Bool) :
    ∀ (l : List Company) (buckets : List (ℚ × List Company)),
      (buckets.map Prod.fst).Pairwise (fun a b => key_le distance_sort a b ∧ a ≠ b) →
      (∀ k ∈ buckets.map Prod.fst, ∀ c ∈ l, key_le distance_sort k (K c)) →
      l.Pairwise (fun a b => key_le distance_sort (K a) (K b)) →
      ((l.foldl (fun acc c => add_to_buckets acc (K c) c) buckets).map Prod.fst).Pairwise
        (fun a b => key_le distance_sort a b ∧ a ≠ b) := by
  intro l
  induction l with
  | nil => intro bs h1 _ _; exact h1
  | cons c t ih =>
    intro bs h1 h2 h3
    rw [List.foldl_cons]
    apply ih
    · rw [add_to_buckets_keys]
      split_ifs with hmem
      · exact h1
      · rw [List.pairwise_append]
        refine ⟨h1, by simp, ?_⟩
        intro a ha b hb
        simp at hb
        subst hb
        exact ⟨h2 a ha c (List.mem_cons_self _ _), fun he => hmem (he ▸ ha)⟩
    · intro k hk c' hc'
      rw [add_to_buckets_keys] at hk
      split_ifs at hk with hmem
      · exact h2 k hk c' (List.mem_cons_of_mem _ hc')
      · rcases List.mem_append.mp hk with hk | hk
        · exact h2 k hk c' (List.mem_cons_of_mem _ hc')
        · simp at hk
          subst hk
          exact (List.pairwise_cons.mp h3).1 c' hc'
    · exact (List.pairwise_cons.mp h3).2

theorem add_to_buckets_elems (key : ℚ) (c : Company) :
    ∀ (buckets : List (ℚ × List Company)) (p : ℚ × List Company),
      p ∈ add_to_buckets buckets key c → ∀ x ∈ p.2,
        (∃ q ∈ buckets, x ∈ q.2) ∨ x = c := by
  intro buckets
  induction buckets with
  | nil =>
    intro p hp x hx
    simp [add_to_buckets] at hp
    subst hp
    simp at hx
    exact Or.inr hx
  | cons q rest ih =>
    intro p hp x hx
    obtain ⟨k, cs⟩ := q
    by_cases hk : key = k
    · rw [show add_to_buckets ((k, cs) :: rest) key c = (k, cs ++ [c]) :: rest from by
        simp [add_to_buckets, hk]] at hp
      rcases List.mem_cons.mp hp with rfl | hp
      · rcases List.mem_append.mp hx with hx | hx
        · exact Or.inl ⟨(k, cs), List.mem_cons_self _ _, hx⟩
        · simp at hx
          exact Or.inr hx
      · exact Or.inl ⟨p, List.mem_cons_of_mem _ hp, hx⟩
    · rw [show add_to_buckets ((k, cs) :: rest) key c = (k, cs) :: add_to_buckets rest key c from by
        simp [add_to_buckets, hk]] at hp
      rcases List.mem_cons.mp hp with rfl | hp
      · exact Or.inl ⟨(k, cs), List.mem_cons_self _ _, hx⟩
      · rcases ih p hp x hx with ⟨q', hq', hxq⟩ | hxc
        · exact Or.inl ⟨q', List.mem_cons_of_mem _ hq', hxq⟩
        · exact Or.inr hxc

theorem foldl_buckets_elems (K : Company → ℚ) :
    ∀ (l : List Company) (buckets : List (ℚ × List Company)) (p : ℚ × List Company),
      p ∈ l.foldl (fun acc c => add_to_buckets acc (K c) c) buckets → ∀ x ∈ p.2,
        (∃ q ∈ buckets, x ∈ q.2) ∨ x ∈ l := by
  intro l
  induction l with
  | nil =>
    intro bs p hp x hx
    exact Or.inl ⟨p, hp, hx⟩
  | cons c t ih =>
    intro bs p hp x hx
    rw [List.foldl_cons] at hp
    rcases ih _ p hp x hx with ⟨q, hq, hxq⟩ | hxt
    · rcases add_to_buckets_elems (K c) c bs q hq x hxq with ⟨q', hq', hxq'⟩ | hxc
      · exact Or.inl ⟨q', hq', hxq'⟩
      · exact Or.inr (hxc ▸ List.mem_cons_self _ _)
    · exact Or.inr (List.mem_cons_of_mem _ hxt)

theorem make_buckets_elems (distance_sort : Bool) (rome_code : Option ℕ)
    (companies : List Company) (p : ℚ × List Company)
    (hp : p ∈ make_buckets distance_sort rome_code companies) :
    ∀ x ∈ p.2, x ∈ companies := by
  intro x hx
  rcases foldl_buckets_elems (bucket_key distance_sort rome_code) companies [] p hp x hx with
    ⟨q, hq, _⟩ | hmem
  · simp at hq
  · exact hmem

theorem forall₂_perm_bucket_shuffle (day_of_year : ℕ) :
    ∀ L : List (List Company),
      List.Forall₂ List.Perm (L.map (bucket_shuffle day_of_year)) L := by
  intro L
  induction L with
  | nil => exact List.Forall₂.nil
  | cons l t ih => exact List.Forall₂.cons (bucket_shuffle_perm day_of_year l) ih

/-- C5 (counterexample): buckets are emitted in first-seen order, not in key
order. On the two-candidate page [distance 10, distance 5] in
sort-by-distance mode, the output keeps the input order, so two consecutive
output elements lie in different buckets while the earlier one's key (10) is
not strictly higher priority (closer) than the later one's (5). -/
theorem C5_cross_bucket_counterexample :
    shuffle_companies [⟨1, 10, 50, []⟩, ⟨2, 5, 50, []⟩] true none ⟨1, 0, 0, 0⟩ =
      [⟨1, 10, 50, []⟩, ⟨2, 5, 50, []⟩] ∧
    bucket_key true none ⟨1, 10, 50, []⟩ ≠ bucket_key true none ⟨2, 5, 50, []⟩ ∧
    ¬ key_lt true (bucket_key true none ⟨1, 10, 50, []⟩)
        (bucket_key true none ⟨2, 5, 50, []⟩) := by
  refine ⟨?_, ?_, ?_⟩
  · norm_num [shuffle_companies, make_buckets, add_to_buckets, bucket_key,
      bucket_shuffle, shuffle_steps]
  · norm_num [bucket_key]
  · norm_num [bucket_key, key_lt]

/-- C5 (amended): the output of `shuffle_companies` is always the
concatenation, in original bucket order, of per-bucket reorderings each of
which is a permutation of its bucket (no candidate crosses a bucket
boundary, and each bucket holds the same multiset before and after
shuffling); and provided the input page is ordered by bucket-key priority
(as the search index delivers it), any two consecutive output elements with
different bucket keys have the earlier key strictly higher priority
(closer under sort-by-distance, higher-scored under sort-by-score). -/
theorem C5_bucket_invariant (companies : List Company) (distance_sort : Bool)
    (rome_code : Option ℕ) (now : Datetime) :
    (∃ shuffled : List (List Company),
        List.Forall₂ List.Perm shuffled
          ((make_buckets distance_sort rome_code companies).map Prod.snd) ∧
        shuffle_companies companies distance_sort rome_code now = shuffled.flatten) ∧
    (companies.Pairwise (fun a b =>
        key_le distance_sort (bucket_key distance_sort rome_code a)
          (bucket_key distance_sort rome_code b)) →
      (shuffle_companies companies distance_sort rome_code now).Chain' (fun a b =>
        bucket_key distance_sort rome_code a ≠ bucket_key distance_sort rome_code b →
          key_lt distance_sort (bucket_key distance_sort rome_code a)
            (bucket_key distance_sort rome_code b))) := by
  constructor
  · refine ⟨(make_buckets distance_sort rome_code companies).map
      (fun b : ℚ × List Company => bucket_shuffle now.tm_yday b.2), ?_, rfl⟩
    have h := forall₂_perm_bucket_shuffle now.tm_yday
      ((make_buckets distance_sort rome_code companies).map Prod.snd)
    simpa [List.map_map, Function.comp] using h
  · intro hsorted
    have hkeys : ((make_buckets distance_sort rome_code companies).map Prod.fst).Pairwise
        (fun a b => key_le distance_sort a b ∧ a ≠ b) := by
      unfold make_buckets
      exact foldl_buckets_sorted (bucket_key distance_sort rome_code) distance_sort
        companies [] (by simp) (by simp) hsorted
    have hkeyed := make_buckets_keyed distance_sort rome_code companies
    have heq : shuffle_companies companies distance_sort rome_code now =
        ((make_buckets distance_sort rome_code companies).map
          fun b => bucket_shuffle now.tm_yday b.2).flatten := rfl
    have hpair : (shuffle_companies companies distance_sort rome_code now).Pairwise
        (fun a b =>
          bucket_key distance_sort rome_code a ≠ bucket_key distance_sort rome_code b →
            key_lt distance_sort (bucket_key distance_sort rome_code a)
              (bucket_key distance_sort rome_code b)) := by
      rw [heq, List.pairwise_flatten]
      constructor
      · intro l hl
        obtain ⟨p, hp, rfl⟩ := List.mem_map.mp hl
        have hmemkey : ∀ x ∈ bucket_shuffle now.tm_yday p.2,
            bucket_key distance_sort rome_code x = p.1 := by
          intro x hx
          exact (hkeyed p hp).2 x ((bucket_shuffle_perm _ _).mem_iff.mp hx)
        apply List.pairwise_of_forall_mem_list
        intro a ha b hb hne
        exact absurd ((hmemkey a ha).trans (hmemkey b hb).symm) hne
      · rw [List.pairwise_map]
        have hkeys2 : (make_buckets distance_sort rome_code companies).Pairwise
            (fun p q => key_le distance_sort p.1 q.1 ∧ p.1 ≠ q.1) :=
          List.pairwise_map.mp hkeys
        refine hkeys2.imp_of_mem ?_
        intro p q hp hq hstrict a ha b hb
        have hka : bucket_key distance_sort rome_code a = p.1 :=
          (hkeyed p hp).2 a ((bucket_shuffle_perm _ _).mem_iff.mp ha)
        have hkb : bucket_key distance_sort rome_code b = q.1 :=
          (hkeyed q hq).2 b ((bucket_shuffle_perm _ _).mem_iff.mp hb)
        intro _
        rw [hka, hkb]
        exact key_lt_of_le_ne distance_sort hstrict.1 hstrict.2
    exact hpair.chain'

/-- C5 (amendment witness): on the priority-sorted page [distance 5,
distance 10], the output decomposes into per-bucket permutations and its
consecutive cross-bucket keys are strictly ordered. -/
theorem C5_bucket_invariant_witness :
    (∃ shuffled : List (List Company),
        List.Forall₂ List.Perm shuffled
          ((make_buckets true none [⟨1, 5, 80, []⟩, ⟨2, 10, 70, []⟩]).map Prod.snd) ∧
        shuffle_companies [⟨1, 5, 80, []⟩, ⟨2, 10, 70, []⟩] true none ⟨1, 0, 0, 0⟩ =
          shuffled.flatten) ∧
    (shuffle_companies [⟨1, 5, 80, []⟩, ⟨2, 10, 70, []⟩] true none ⟨1, 0, 0, 0⟩).Chain'
      (fun a b => bucket_key true none a ≠ bucket_key true none b →
        key_lt true (bucket_key true none a) (bucket_key true none b)) :=
  ⟨(C5_bucket_invariant [⟨1, 5, 80, []⟩, ⟨2, 10, 70, []⟩] true none ⟨1, 0, 0, 0⟩).1,
   (C5_bucket_invariant [⟨1, 5, 80, []⟩, ⟨2, 10, 70, []⟩] true none ⟨1, 0, 0, 0⟩).2
     (by norm_num [bucket_key, key_le])⟩

theorem stars_le_five (c : Company) (rome_code : Option ℕ)
    (hb1 : c.score ≤ 100) (hb2 : ∀ p ∈ c.rome_scores, p.2 ≤ 100) :
    c.get_stars_for_rome_code rome_code ≤ 5 := by
  have hdiv : ∀ s : ℕ, s ≤ 100 → ((s : ℚ) / 20 ≤ 5) := by
    intro s hs
    rw [div_le_iff₀ (by norm_num)]
    norm_num
    exact_mod_cast hs
  unfold Company.get_stars_for_rome_code
  cases rome_code with
  | none => exact hdiv c.score hb1
  | some r =>
    cases hfind : c.rome_scores.find? (fun p => p.1 == r) with
    | none => simp only [hfind]; exact hdiv c.score hb1
    | some p => simp only [hfind]; exact hdiv p.2 (hb2 p (List.mem_of_find?_eq_some hfind))

theorem bucket_key_unboosted (rome_code : Option ℕ) (c : Company)
    (hscore : c.score ≠ 100) (hb1 : c.score ≤ 100)
    (hb2 : ∀ p ∈ c.rome_scores, p.2 ≤ 100) :
    bucket_key false rome_code c ≠ 100 := by
  have h5 := stars_le_five c rome_code hb1 hb2
  simp only [bucket_key, Bool.false_eq_true, if_false, if_neg hscore]
  intro he
  rw [he] at h5
  norm_num at h5

theorem foldl_buckets_all_key (K : Company → ℚ) (k : ℚ) :
    ∀ (l : List Company) (cs : List Company),
      (∀ c ∈ l, K c = k) →
      l.foldl (fun acc c => add_to_buckets acc (K c) c) [(k, cs)] = [(k, cs ++ l)] := by
  intro l
  induction l with
  | nil => intro cs _; simp
  | cons c t ih =>
    intro cs hall
    have hkc : K c = k := hall c (List.mem_cons_self _ _)
    rw [List.foldl_cons,
      show add_to_buckets [(k, cs)] (K c) c = [(k, cs ++ [c])] from by
        simp [add_to_buckets, hkc],
      ih (cs ++ [c]) (fun c' hc' => hall c' (List.mem_cons_of_mem _ hc'))]
    simp

theorem foldl_buckets_head_frozen (K : Company → ℚ) (k : ℚ) (cs : List Company) :
    ∀ (l : List Company) (bs : List (ℚ × List Company)),
      (∀ c ∈ l, K c ≠ k) →
      l.foldl (fun acc c => add_to_buckets acc (K c) c) ((k, cs) :: bs) =
        (k, cs) :: l.foldl (fun acc c => add_to_buckets acc (K c) c) bs := by
  intro l
  induction l with
  | nil => intro bs _; simp
  | cons c t ih =>
    intro bs hall
    have hkc : K c ≠ k := hall c (List.mem_cons_self _ _)
    rw [List.foldl_cons,
      show add_to_buckets ((k, cs) :: bs) (K c) c = (k, cs) :: add_to_buckets bs (K c) c from by
        simp [add_to_buckets, hkc],
      ih _ (fun c' hc' => hall c' (List.mem_cons_of_mem _ hc')), List.foldl_cons]

theorem shuffle_companies_mem (companies : List Company) (distance_sort : Bool)
    (rome_code : Option ℕ) (now : Datetime) :
    ∀ c ∈ shuffle_companies companies distance_sort rome_code now, c ∈ companies := by
  intro c hc
  have heq : shuffle_companies companies distance_sort rome_code now =
      ((make_buckets distance_sort rome_code companies).map
        fun b => bucket_shuffle now.tm_yday b.2).flatten := rfl
  rw [heq] at hc
  obtain ⟨l, hl, hcl⟩ := List.mem_flatten.mp hc
  obtain ⟨p, hp, rfl⟩ := List.mem_map.mp hl
  exact make_buckets_elems distance_sort rome_code companies p hp c
    ((bucket_shuffle_perm _ _).mem_iff.mp hcl)

/-- C2 (counterexample): on the page [score 50, score 100] in sort-by-score
mode, `shuffle_companies` keeps the input order, so the unboosted score-50
candidate precedes the boosted score-100 candidate in the output: buckets
are concatenated in first-seen order, not by key priority, so boosting does
not by itself guarantee precedence on an arbitrary input list. -/
theorem C2_boosted_counterexample :
    shuffle_companies [⟨1, 0, 50, []⟩, ⟨2, 0, 100, []⟩] false none ⟨1, 0, 0, 0⟩ =
      [⟨1, 0, 50, []⟩, ⟨2, 0, 100, []⟩] ∧
    (⟨1, 0, 50, []⟩ : Company).score ≤ 99 ∧ (⟨2, 0, 100, []⟩ : Company).score = 100 := by
  refine ⟨?_, by decide, by decide⟩
  norm_num [shuffle_companies, make_buckets, add_to_buckets, bucket_key,
    Company.get_stars_for_rome_code, bucket_shuffle, shuffle_steps]

/-- C2 (amended): in sort-by-score mode, a candidate with base score exactly
100 is keyed by the special value 100, and — provided all scores lie in the
documented 0-100 range — its bucket contains exactly the boosted candidates
(an unboosted candidate's key is a star rating of at most 5). Moreover, when
every boosted candidate precedes every unboosted one in the input page (as
when the index returns boosted offices first), every boosted candidate
precedes every unboosted one in the output. -/
theorem C2_boosted_bucket (boosted unboosted : List Company)
    (rome_code : Option ℕ) (now : Datetime)
    (hbound : ∀ c ∈ boosted ++ unboosted,
        c.score ≤ 100 ∧ ∀ p ∈ c.rome_scores, p.2 ≤ 100)
    (hb : ∀ c ∈ boosted, c.score = 100)
    (hu : ∀ c ∈ unboosted, c.score ≠ 100) :
    (∀ p ∈ make_buckets false rome_code (boosted ++ unboosted), ∀ c ∈ p.2,
        (c.score = 100 ↔ p.1 = 100)) ∧
    (∃ ob ou, shuffle_companies (boosted ++ unboosted) false rome_code now = ob ++ ou ∧
        (∀ c ∈ ob, c.score = 100) ∧ (∀ c ∈ ou, c.score ≠ 100)) := by
  have hkey100 : ∀ c ∈ boosted ++ unboosted,
      (bucket_key false rome_code c = 100 ↔ c.score = 100) := by
    intro c hc
    constructor
    · intro hk
      by_contra hne
      exact bucket_key_unboosted rome_code c hne (hbound c hc).1 (hbound c hc).2 hk
    · intro hs
      simp [bucket_key, hs]
  constructor
  · intro p hp c hc
    have hck := (make_buckets_keyed false rome_code _ p hp).2 c hc
    have hcm := make_buckets_elems false rome_code _ p hp c hc
    rw [← hck]
    exact (hkey100 c hcm).symm
  · cases boosted with
    | nil =>
      refine ⟨[], shuffle_companies ([] ++ unboosted) false rome_code now,
        by simp, by simp, ?_⟩
      intro c hc
      have hcm := shuffle_companies_mem ([] ++ unboosted) false rome_code now c hc
      simp at hcm
      exact hu c hcm
    | cons b0 btail =>
      have hK100 : ∀ c ∈ b0 :: btail, bucket_key false rome_code c = 100 := by
        intro c hc
        simp [bucket_key, hb c hc]
      have hKun : ∀ c ∈ unboosted, bucket_key false rome_code c ≠ 100 := by
        intro c hc
        exact bucket_key_unboosted rome_code c (hu c hc)
          (hbound c (List.mem_append_right _ hc)).1
          (hbound c (List.mem_append_right _ hc)).2
      have hbuckets : make_buckets false rome_code ((b0 :: btail) ++ unboosted) =
          (100, b0 :: btail) :: make_buckets false rome_code unboosted := by
        unfold make_buckets
        rw [List.foldl_append, List.foldl_cons,
          show add_to_buckets [] (bucket_key false rome_code b0) b0 =
              [(100, [b0])] from by
            simp [add_to_buckets, hK100 b0 (List.mem_cons_self _ _)],
          foldl_buckets_all_key _ 100 btail [b0]
            (fun c hc => hK100 c (List.mem_cons_of_mem _ hc)),
          foldl_buckets_head_frozen _ 100 ([b0] ++ btail) unboosted [] hKun]
        simp
      refine ⟨bucket_shuffle now.tm_yday (b0 :: btail),
        ((make_buckets false rome_code unboosted).map
          fun b : ℚ × List Company => bucket_shuffle now.tm_yday b.2).flatten, ?_, ?_, ?_⟩
      · have heq : shuffle_companies ((b0 :: btail) ++ unboosted) false rome_code now =
            ((make_buckets false rome_code ((b0 :: btail) ++ unboosted)).map
              fun b => bucket_shuffle now.tm_yday b.2).flatten := rfl
        rw [heq, hbuckets]
        simp
      · intro c hc
        exact hb c ((bucket_shuffle_perm _ _).mem_iff.mp hc)
      · intro c hc
        obtain ⟨l, hl, hcl⟩ := List.mem_flatten.mp hc
        obtain ⟨p, hp, rfl⟩ := List.mem_map.mp hl
        exact hu c (make_buckets_elems false rome_code unboosted p hp c
          ((bucket_shuffle_perm _ _).mem_iff.mp hcl))

/-- C2 (amendment witness): with the boosted office listed first, the
score-100 office occupies the key-100 bucket and precedes the score-50
office in the output. -/
theorem C2_boosted_bucket_witness :
    (∀ p ∈ make_buckets false none ([⟨2, 0, 100, []⟩] ++ [⟨1, 0, 50, []⟩]), ∀ c ∈ p.2,
        (c.score = 100 ↔ p.1 = 100)) ∧
    (∃ ob ou, shuffle_companies ([⟨2, 0, 100, []⟩] ++ [⟨1, 0, 50, []⟩]) false none
          ⟨1, 0, 0, 0⟩ = ob ++ ou ∧
        (∀ c ∈ ob, c.score = 100) ∧ (∀ c ∈ ou, c.score ≠ 100)) :=
  C2_boosted_bucket [⟨2, 0, 100, []⟩] [⟨1, 0, 50, []⟩] none ⟨1, 0, 0, 0⟩
    (by decide) (by decide) (by decide)

/-- A Python value as passed for the headcount (employer-size) filter: an
integer, a string, or None. -/
inductive PyVal
  | vint : ℤ → PyVal
  | vstr : String → PyVal
  | vnone : PyVal
deriving DecidableEq

/-- The two exception classes Python `int(...)` raises on these inputs. -/
inductive PyIntErr
  | typeError
  | valueError
deriving DecidableEq

/-- One decimal digit: a character with code 48-57 maps to its value. -/
def char_digit (c : Char) : Option ℕ :=
  if 48 ≤ c.toNat ∧ c.toNat ≤ 57 then some (c.toNat - 48) else none

/-- Parses an all-digit character run into a natural number accumulator. -/
def parse_digits : List Char → ℕ → Option ℕ
  | [], acc => some acc
  | c :: cs, acc =>
    match char_digit c with
    | some d => parse_digits cs (acc * 10 + d)
    | none => none

/-- Modelled: Python `int(str)` accepts an optionally signed nonempty run of
decimal digits (character code 45 is a minus sign, 43 a plus sign; the
surrounding-whitespace stripping Python also performs is not relied on by
any caller and is omitted); any other string raises ValueError. -/
def py_str_to_int (s : String) : Option ℤ :=
  match s.data with
  | [] => none
  | c :: rest =>
    if c.toNat = 45 then
      match rest, parse_digits rest 0 with
      | [], _ => none
      | _, some n => some (-(n : ℤ))
      | _, none => none
    else if c.toNat = 43 then
      match rest, parse_digits rest 0 with
      | [], _ => none
      | _, some n => some ((n : ℤ))
      | _, none => none
    else
      match parse_digits (c :: rest) 0 with
      | some n => some ((n : ℤ))
      | none => none

/-- Python `int(x)` on the values above: an int is returned unchanged, a
string parses via `py_str_to_int` or raises ValueError, and None raises
TypeError. -/
def pyIntConv : PyVal → Except PyIntErr ℤ
  | .vint n => .ok n
  | .vstr s =>
    match py_str_to_int s with
    | some n => .ok n
    | none => .error .valueError
  | .vnone => .error .typeError

/-- An exception escaping `build_json_body_elastic_search`: the uncaught
TypeError of `int(headcount_filter)` on None, or the explicit
`Exception("to_number < from_number")`. -/
inductive PyErr
  | typeError
  | exceptionRaised : String → PyErr
deriving DecidableEq

/-- Modelled from the spec: the employer-size bucket codes
`settings.HEADCOUNT_WHATEVER` / `HEADCOUNT_SMALL_ONLY` / `HEADCOUNT_BIG_ONLY`
are configuration constants not among the reviewed sources; the spec only
needs the three bucket codes (ANY, SMALL_ONLY, BIG_ONLY) to be distinct
integers. -/
def HEADCOUNT_WHATEVER : ℤ := 1

/-- Modelled from the spec: the SMALL_ONLY bucket code (see
`HEADCOUNT_WHATEVER`). -/
def HEADCOUNT_SMALL_ONLY : ℤ := 2

/-- Modelled from the spec: the BIG_ONLY bucket code (see
`HEADCOUNT_WHATEVER`). -/
def HEADCOUNT_BIG_ONLY : ℤ := 3

/-- Modelled from the spec: the upper headcount bound of the SMALL_ONLY
bucket, a positive configured threshold. -/
def HEADCOUNT_SMALL_ONLY_MAXIMUM : ℕ := 50

/-- Modelled from the spec: the lower headcount bound of the BIG_ONLY
bucket, a positive configured threshold. -/
def HEADCOUNT_BIG_ONLY_MINIMUM : ℕ := 51

/-- One entry of the `filters` list built by `build_json_body_elastic_search`
(the `query.filtered.filter.bool.must` array), keeping the data each
Elasticsearch clause carries. -/
inductive EsFilter
  | naf : List String → EsFilter
  | headcountGte : ℕ → EsFilter
  | headcountLte : ℕ → EsFilter
  | flagAlternance : EsFilter
  | flagJunior : EsFilter
  | flagSenior : EsFilter
  | flagHandicap : EsFilter
  | scoreForRomeExists : ℕ → EsFilter
  | geoDistance : ℕ → ℚ → ℚ → EsFilter
deriving DecidableEq

/-- Whether a filter clause is the employer-size (`numeric_range` on
`headcount`) clause. -/
def EsFilter.isHeadcountClause : EsFilter → Bool
  | .headcountGte _ => true
  | .headcountLte _ => true
  | _ => false

/-- One entry of the `sort` list: the geo-distance ascending clause (with
the origin coordinates) or a score-descending clause (on the generic score
field if no occupation code is given, else on `score_for_rome_<code>`). -/
inductive EsSort
  | byDistance : ℚ → ℚ → EsSort
  | byScore : Option ℕ → EsSort
deriving DecidableEq

/-- The JSON body assembled by `build_json_body_elastic_search`: sort clause
list, filter list in build order, and the optional `from` / `size`
pagination fields. -/
structure JsonBody where
  sort : List EsSort
  filters : List EsFilter
  from_offset : Option ℤ
  size : Option ℤ
deriving DecidableEq

/-- Python truthiness of the optional `from_number` / `to_number` arguments
(`if from_number:` — both None and 0 are falsy). -/
def py_truthy : Option ℤ → Bool
  | none => false
  | some n => n != 0

/-- Python truthiness of the optional office-size thresholds
(`if min_office_size or max_office_size:`). -/
def py_truthy_nat : Option ℕ → Bool
  | none => false
  | some n => n != 0

/-- The employer-size clause of `build_json_body_elastic_search`
(`common/search.py` lines 326-343): SMALL_ONLY sets the upper bound,
otherwise (`elif`) BIG_ONLY sets the lower bound; when a (truthy) bound is
set, one `numeric_range` clause on `headcount` is emitted — the `lte` dict
assignment would replace the `gte` one if both bounds were ever set
(unreachable because of the `elif`). -/
def headcount_size_filters (hc : ℤ) : List EsFilter :=
  let sizes : Option ℕ × Option ℕ :=
    if hc = HEADCOUNT_SMALL_ONLY then (none, some HEADCOUNT_SMALL_ONLY_MAXIMUM)
    else if hc = HEADCOUNT_BIG_ONLY then (some HEADCOUNT_BIG_ONLY_MINIMUM, none)
    else (none, none)
  if py_truthy_nat sizes.1 || py_truthy_nat sizes.2 then
    [if py_truthy_nat sizes.2 then EsFilter.headcountLte (sizes.2.getD 0)
     else EsFilter.headcountGte (sizes.1.getD 0)]
  else []

/-- The demographic-flag clauses of `build_json_body_elastic_search`
(`common/search.py` lines 345-375): each flag appends one term clause when
the flag equals 1, in the fixed order alternance, junior, senior,
handicap. -/
def demographic_flag_filters (flag_alternance flag_junior flag_senior flag_handicap : ℤ) :
    List EsFilter :=
  (if flag_alternance = 1 then [EsFilter.flagAlternance] else []) ++
  (if flag_junior = 1 then [EsFilter.flagJunior] else []) ++
  (if flag_senior = 1 then [EsFilter.flagSenior] else []) ++
  (if flag_handicap = 1 then [EsFilter.flagHandicap] else [])

/-- The existence clause on the occupation-specific score field
(`common/search.py` lines 405-410), appended exactly when an occupation code
is supplied. -/
def rome_exists_filters (rome_code : Option ℕ) : List EsFilter :=
  match rome_code with
  | none => []
  | some r => [EsFilter.scoreForRomeExists r]

/-- The full `filters` list of `build_json_body_elastic_search` in source
append order: naf clause (line 318), employer-size clause, demographic
flags, occupation-score existence clause, geo-distance clause (line 419);
the sequential `filters += [..]` / `filters.append(..)` updates are grouped
associatively. -/
def assemble_filters (naf_codes : List String) (hc : ℤ)
    (flag_alternance flag_junior flag_senior flag_handicap : ℤ)
    (rome_code : Option ℕ) (distance : ℕ) (latitude longitude : ℚ) : List EsFilter :=
  [EsFilter.naf naf_codes] ++ headcount_size_filters hc ++
    demographic_flag_filters flag_alternance flag_junior flag_senior flag_handicap ++
    rome_exists_filters rome_code ++
    [EsFilter.geoDistance distance latitude longitude]

/-- The `sort` clause list of `build_json_body_elastic_search`
(`common/search.py` lines 377-417): an unrecognized sort mode falls back to
"distance" (with a log line, not an error); distance mode sorts by
[distance asc, score desc], score mode by [score desc, distance asc]. -/
def assemble_sort_attrs (sort : String) (latitude longitude : ℚ)
    (rome_code : Option ℕ) : List EsSort :=
  let sort1 := if sort ≠ "distance" ∧ sort ≠ "score" then "distance" else sort
  if sort1 = "distance" then [EsSort.byDistance latitude longitude, EsSort.byScore rome_code]
  else if sort1 = "score" then [EsSort.byScore rome_code, EsSort.byDistance latitude longitude]
  else []

/-- Embeds `build_json_body_elastic_search` (`common/search.py` lines
304-450). Representation differences only: the Elasticsearch dictionaries
become `EsFilter`/`EsSort` values appended in the exact source order (see
`assemble_filters` / `assemble_sort_attrs`), and raised exceptions become
`Except.error`. `int(headcount_filter)` (line 321) catches only ValueError,
so a None input propagates TypeError out of the whole function; the window
check (lines 442-449) raises when `to_number < from_number`. -/
def build_json_body_elastic_search (naf_codes : List String)
    (latitude longitude : ℚ) (distance : ℕ)
    (from_number to_number : Option ℤ) (headcount_filter : PyVal)
    (sort : String) (flag_alternance flag_junior flag_senior flag_handicap : ℤ)
    (rome_code : Option ℕ) : Except PyErr JsonBody :=
  match (match pyIntConv headcount_filter with
         | .ok n => .ok n
         | .error .valueError => .ok HEADCOUNT_WHATEVER
         | .error .typeError => .error PyErr.typeError : Except PyErr ℤ) with
  | .error e => .error e
  | .ok hc =>
    let filters := assemble_filters naf_codes hc flag_alternance flag_junior
      flag_senior flag_handicap rome_code distance latitude longitude
    let sort_attrs := assemble_sort_attrs sort latitude longitude rome_code
    if py_truthy from_number then
      let fv := from_number.getD 0
      if py_truthy to_number then
        let tv := to_number.getD 0
        if tv < fv then .error (.exceptionRaised "to_number < from_number")
        else .ok ⟨sort_attrs, filters, some (fv - 1), some (tv - fv + 1)⟩
      else .ok ⟨sort_attrs, filters, some (fv - 1), none⟩
    else .ok ⟨sort_attrs, filters, none, none⟩

/-- The headcount sanitisation at the top of `_get_companies_from_api`
(`common/search.py` lines 204-209): `int(headcount)` with both TypeError and
ValueError caught and replaced by `settings.HEADCOUNT_WHATEVER`. -/
def api_headcount_filter (headcount : PyVal) : ℤ :=
  match pyIntConv headcount with
  | .ok n => n
  | .error .typeError => HEADCOUNT_WHATEVER
  | .error .valueError => HEADCOUNT_WHATEVER

/-- Embeds `count_companies_for_naf_codes` (`common/search.py` lines
228-237) up to the external call: it builds the JSON body with the default
window (no `from_number`/`to_number`) and default sort, strips the sort
clause (`del json_body["sort"]`), and propagates any exception from the
builder — in particular the headcount filter reaches the builder raw. -/
def count_companies_for_naf_codes (naf_codes : List String)
    (latitude longitude : ℚ) (distance : ℕ) (headcount_filter : PyVal)
    (flag_alternance flag_junior flag_senior flag_handicap : ℤ)
    (rome_code : Option ℕ) : Except PyErr JsonBody :=
  match build_json_body_elastic_search naf_codes latitude longitude distance
    none none headcount_filter "distance"
    flag_alternance flag_junior flag_senior flag_handicap rome_code with
  | .error e => .error e
  | .ok body => .ok ⟨[], body.filters, body.from_offset, body.size⟩

/-- C7 (counterexample): with `from_number = 5, to_number = 4` the computed
size `4 - 5 + 1 = 0` is not negative, yet `build_json_body_elastic_search`
raises `to_number < from_number` — the code raises whenever `to < from`,
i.e. whenever the size would be non-positive, not only when it would be
negative. -/
theorem C7_window_counterexample :
    build_json_body_elastic_search [] 0 0 0 (some 5) (some 4) (.vint 1) "distance"
        0 0 0 0 none =
      .error (.exceptionRaised "to_number < from_number") ∧
    ¬ ((4 : ℤ) - 5 + 1 < 0) := by
  constructor
  · rfl
  · decide

/-- C7 (amended): `build_json_body_elastic_search` sets the 0-based offset
`from = from_number - 1` only when `from_number` is supplied and truthy, and
additionally sets `size = to_number - from_number + 1` only when `to_number`
is also supplied and truthy; it raises the `to_number < from_number`
exception exactly when both are truthy and `to_number < from_number` — that
is, when the computed size would be non-positive (`<= 0`, not `< 0` as
claimed). -/
theorem C7_pagination_behavior (naf_codes : List String) (latitude longitude : ℚ)
    (distance : ℕ) (from_number to_number : Option ℤ) (hc : ℤ) (sort : String)
    (flag_alternance flag_junior flag_senior flag_handicap : ℤ)
    (rome_code : Option ℕ) :
    (py_truthy from_number = false →
      ∃ body, build_json_body_elastic_search naf_codes latitude longitude distance
          from_number to_number (.vint hc) sort flag_alternance flag_junior
          flag_senior flag_handicap rome_code = .ok body ∧
        body.from_offset = none ∧ body.size = none) ∧
    (∀ fv, from_number = some fv → fv ≠ 0 → py_truthy to_number = false →
      ∃ body, build_json_body_elastic_search naf_codes latitude longitude distance
          from_number to_number (.vint hc) sort flag_alternance flag_junior
          flag_senior flag_handicap rome_code = .ok body ∧
        body.from_offset = some (fv - 1) ∧ body.size = none) ∧
    (∀ fv tv, from_number = some fv → to_number = some tv → fv ≠ 0 → tv ≠ 0 →
      (tv < fv → build_json_body_elastic_search naf_codes latitude longitude distance
          from_number to_number (.vint hc) sort flag_alternance flag_junior
          flag_senior flag_handicap rome_code =
        .error (.exceptionRaised "to_number < from_number")) ∧
      (fv ≤ tv → ∃ body, build_json_body_elastic_search naf_codes latitude longitude
          distance from_number to_number (.vint hc) sort flag_alternance flag_junior
          flag_senior flag_handicap rome_code = .ok body ∧
        body.from_offset = some (fv - 1) ∧ body.size = some (tv - fv + 1))) ∧
    (∀ e, build_json_body_elastic_search naf_codes latitude longitude distance
        from_number to_number (.vint hc) sort flag_alternance flag_junior
        flag_senior flag_handicap rome_code = .error e →
      ∃ fv tv, from_number = some fv ∧ to_number = some tv ∧ fv ≠ 0 ∧ tv ≠ 0 ∧
        tv < fv ∧ e = .exceptionRaised "to_number < from_number") := by
  refine ⟨?_, ?_, ?_, ?_⟩
  · intro hf
    simp only [build_json_body_elastic_search, pyIntConv, hf, Bool.false_eq_true,
      if_false]
    exact ⟨_, rfl, rfl, rfl⟩
  · intro fv hfv hfv0 ht
    subst hfv
    have hpf : py_truthy (some fv) = true := by simp [py_truthy, hfv0]
    simp only [build_json_body_elastic_search, pyIntConv, hpf, ht, if_true,
      Bool.false_eq_true, if_false, Option.getD_some]
    exact ⟨_, rfl, rfl, rfl⟩
  · intro fv tv hfv htv hfv0 htv0
    subst hfv
    subst htv
    have hpf : py_truthy (some fv) = true := by simp [py_truthy, hfv0]
    have hpt : py_truthy (some tv) = true := by simp [py_truthy, htv0]
    constructor
    · intro hlt
      simp only [build_json_body_elastic_search, pyIntConv, hpf, hpt, if_true,
        Option.getD_some, if_pos hlt]
    · intro hle
      have hnlt : ¬ (tv < fv) := not_lt.mpr hle
      simp only [build_json_body_elastic_search, pyIntConv, hpf, hpt, if_true,
        Option.getD_some, if_neg hnlt]
      exact ⟨_, rfl, rfl, rfl⟩
  · intro e he
    cases hfrom : from_number with
    | none =>
      subst hfrom
      simp [build_json_body_elastic_search, pyIntConv, py_truthy] at he
    | some fv =>
      subst hfrom
      by_cases hfv0 : fv = 0
      · subst hfv0
        simp [build_json_body_elastic_search, pyIntConv, py_truthy] at he
      · have hpf : py_truthy (some fv) = true := by simp [py_truthy, hfv0]
        cases hto : to_number with
        | none =>
          subst hto
          simp [build_json_body_elastic_search, pyIntConv, py_truthy, hfv0] at he
        | some tv =>
          subst hto
          by_cases htv0 : tv = 0
          · subst htv0
            simp [build_json_body_elastic_search, pyIntConv, py_truthy, hfv0] at he
          · have hpt : py_truthy (some tv) = true := by simp [py_truthy, htv0]
            by_cases hlt : tv < fv
            · refine ⟨fv, tv, rfl, rfl, hfv0, htv0, hlt, ?_⟩
              simp only [build_json_body_elastic_search, pyIntConv, hpf, hpt, if_true,
                Option.getD_some, if_pos hlt] at he
              injection he with he2
              exact he2.symm
            · have hnlt : ¬ (tv < fv) := hlt
              simp only [build_json_body_elastic_search, pyIntConv, hpf, hpt, if_true,
                Option.getD_some, if_neg hnlt] at he
              simp at he

/-- C7 (amendment witness): with the window `from = 11, to = 20` supplied,
the builder succeeds and sets offset `10` and size `10`. -/
theorem C7_pagination_behavior_witness :
    ∃ body, build_json_body_elastic_search [] 0 0 0 (some 11) (some 20) (.vint 1)
        "distance" 0 0 0 0 none = .ok body ∧
      body.from_offset = some ((11 : ℤ) - 1) ∧ body.size = some ((20 : ℤ) - 11 + 1) :=
  ((C7_pagination_behavior [] 0 0 0 (some 11) (some 20) 1 "distance" 0 0 0 0
      none).2.2.1 11 20 rfl rfl (by decide) (by decide)).2 (by decide)

theorem build_vstr_eq_whatever (naf_codes : List String) (latitude longitude : ℚ)
    (distance : ℕ) (from_number to_number : Option ℤ) (s : String) (sort : String)
    (flag_alternance flag_junior flag_senior flag_handicap : ℤ)
    (rome_code : Option ℕ) (hs : py_str_to_int s = none) :
    build_json_body_elastic_search naf_codes latitude longitude distance from_number
        to_number (.vstr s) sort flag_alternance flag_junior flag_senior flag_handicap
        rome_code =
      build_json_body_elastic_search naf_codes latitude longitude distance from_number
        to_number (.vint HEADCOUNT_WHATEVER) sort flag_alternance flag_junior
        flag_senior flag_handicap rome_code := by
  simp only [build_json_body_elastic_search, pyIntConv, hs]

theorem build_vint_ne_typeError (naf_codes : List String) (latitude longitude : ℚ)
    (distance : ℕ) (from_number to_number : Option ℤ) (hc : ℤ) (sort : String)
    (flag_alternance flag_junior flag_senior flag_handicap : ℤ)
    (rome_code : Option ℕ) :
    build_json_body_elastic_search naf_codes latitude longitude distance from_number
        to_number (.vint hc) sort flag_alternance flag_junior flag_senior flag_handicap
        rome_code ≠ .error .typeError := by
  simp only [build_json_body_elastic_search, pyIntConv]
  split_ifs <;> simp

theorem demographic_flag_filters_no_headcount
    (flag_alternance flag_junior flag_senior flag_handicap : ℤ) :
    ∀ f ∈ demographic_flag_filters flag_alternance flag_junior flag_senior flag_handicap,
      f.isHeadcountClause = false := by
  intro f hf
  have hmem : f ∈ [EsFilter.flagAlternance, EsFilter.flagJunior, EsFilter.flagSenior,
      EsFilter.flagHandicap] := by
    unfold demographic_flag_filters at hf
    split_ifs at hf <;> simp_all <;> tauto
  fin_cases hmem <;> rfl

theorem assemble_filters_whatever_no_headcount (naf_codes : List String)
    (flag_alternance flag_junior flag_senior flag_handicap : ℤ)
    (rome_code : Option ℕ) (distance : ℕ) (latitude longitude : ℚ) :
    ∀ f ∈ assemble_filters naf_codes HEADCOUNT_WHATEVER flag_alternance flag_junior
        flag_senior flag_handicap rome_code distance latitude longitude,
      f.isHeadcountClause = false := by
  intro f hf
  simp only [assemble_filters, List.mem_append] at hf
  rcases hf with ((((hf | hf) | hf) | hf) | hf)
  · simp_all [EsFilter.isHeadcountClause]
  · rw [show headcount_size_filters HEADCOUNT_WHATEVER = [] from rfl] at hf
    simp at hf
  · exact demographic_flag_filters_no_headcount _ _ _ _ f hf
  · unfold rome_exists_filters at hf
    cases rome_code <;> simp_all [EsFilter.isHeadcountClause]
  · simp_all [EsFilter.isHeadcountClause]

theorem build_whatever_no_headcount (naf_codes : List String) (latitude longitude : ℚ)
    (distance : ℕ) (from_number to_number : Option ℤ) (sort : String)
    (flag_alternance flag_junior flag_senior flag_handicap : ℤ)
    (rome_code : Option ℕ) (body : JsonBody)
    (hb : build_json_body_elastic_search naf_codes latitude longitude distance
        from_number to_number (.vint HEADCOUNT_WHATEVER) sort flag_alternance
        flag_junior flag_senior flag_handicap rome_code = .ok body) :
    ∀ f ∈ body.filters, f.isHeadcountClause = false := by
  simp only [build_json_body_elastic_search, pyIntConv] at hb
  split_ifs at hb <;>
    (injection hb with hb2
     subst hb2
     exact assemble_filters_whatever_no_headcount _ _ _ _ _ _ _ _ _)

/-- C8 (counterexample): a None headcount — a non-numeric employer-size
input — aborts query building: `build_json_body_elastic_search` catches only
ValueError, so `int(None)` raises TypeError, and the count path
(`count_companies_for_naf_codes`, which passes the headcount raw) propagates
it, aborting the search instead of degrading to the ANY bucket. -/
theorem C8_headcount_none_counterexample :
    build_json_body_elastic_search [] 0 0 0 none none .vnone "distance" 0 0 0 0 none =
      .error .typeError ∧
    count_companies_for_naf_codes [] 0 0 0 .vnone 0 0 0 0 none = .error .typeError :=
  ⟨rfl, rfl⟩

/-- C8 (amended): an unparseable string headcount never aborts query
building — both the API fetch path's sanitiser and the builder's ValueError
handler degrade it silently to the ANY bucket, and no employer-size clause
is emitted into the query; a None headcount is likewise recovered by the
fetch path's sanitiser, but the builder itself (and hence the count path,
which passes the headcount raw) raises TypeError on it. -/
theorem C8_headcount_degradation (naf_codes : List String) (latitude longitude : ℚ)
    (distance : ℕ) (from_number to_number : Option ℤ) (s : String) (sort : String)
    (flag_alternance flag_junior flag_senior flag_handicap : ℤ)
    (rome_code : Option ℕ) (hs : py_str_to_int s = none) :
    api_headcount_filter (.vstr s) = HEADCOUNT_WHATEVER ∧
    api_headcount_filter .vnone = HEADCOUNT_WHATEVER ∧
    build_json_body_elastic_search naf_codes latitude longitude distance from_number
        to_number (.vstr s) sort flag_alternance flag_junior flag_senior flag_handicap
        rome_code ≠ .error .typeError ∧
    (∀ body, build_json_body_elastic_search naf_codes latitude longitude distance
        from_number to_number (.vstr s) sort flag_alternance flag_junior flag_senior
        flag_handicap rome_code = .ok body →
      ∀ f ∈ body.filters, f.isHeadcountClause = false) ∧
    build_json_body_elastic_search naf_codes latitude longitude distance from_number
        to_number .vnone sort flag_alternance flag_junior flag_senior flag_handicap
        rome_code = .error .typeError := by
  have hred := build_vstr_eq_whatever naf_codes latitude longitude distance from_number
    to_number s sort flag_alternance flag_junior flag_senior flag_handicap rome_code hs
  refine ⟨?_, rfl, ?_, ?_, rfl⟩
  · simp [api_headcount_filter, pyIntConv, hs]
  · rw [hred]
    exact build_vint_ne_typeError naf_codes latitude longitude distance from_number
      to_number HEADCOUNT_WHATEVER sort flag_alternance flag_junior flag_senior
      flag_handicap rome_code
  · intro body hb
    rw [hred] at hb
    exact build_whatever_no_headcount naf_codes latitude longitude distance from_number
      to_number sort flag_alternance flag_junior flag_senior flag_handicap rome_code
      body hb

/-- C8 (amendment witness): the unparseable headcount string "small" is
degraded to the ANY bucket on every path and produces no employer-size
clause, while a None headcount makes the builder raise TypeError. -/
theorem C8_headcount_degradation_witness :
    api_headcount_filter (.vstr "small") = HEADCOUNT_WHATEVER ∧
    api_headcount_filter .vnone = HEADCOUNT_WHATEVER ∧
    build_json_body_elastic_search [] 0 0 0 none none (.vstr "small") "distance"
        0 0 0 0 none ≠ .error .typeError ∧
    (∀ body, build_json_body_elastic_search [] 0 0 0 none none (.vstr "small")
        "distance" 0 0 0 0 none = .ok body →
      ∀ f ∈ body.filters, f.isHeadcountClause = false) ∧
    build_json_body_elastic_search [] 0 0 0 none none .vnone "distance" 0 0 0 0 none =
      .error .typeError :=
  C8_headcount_degradation [] 0 0 0 none none "small" "distance" 0 0 0 0 none (by rfl)

/-- C6 (witness): with the count function equal to the radius itself, all
three tiers are recorded and the recorded counts 30 < 50 < 3000 are strictly
increasing. -/
theorem C6_fallback_counts_strictly_increasing_witness :
    List.Chain' (· < ·)
      ((fallback_alternative_distances 3 (fun d => d)).map fun e => e.2.2) ∧
    (∀ e ∈ fallback_alternative_distances 3 (fun d => d),
        e.2.2 = e.1 ∧ (e.1, e.2.1) ∈ radius_tiers) :=
  C6_fallback_counts_strictly_increasing 3 (fun d => d)
